import Mathlib

/-!
Shallow embedding of drivers/input/ir/ir-configfs.c: a configfs-driven
registry of IR remote keymaps.  A `Keymap` is one protocol/device/command →
keycode binding (struct keymap), a `Remote` is a named group holding a
virtual input device and a list of keymaps (struct remote), and the registry
is a list of remotes (the configfs subsystem's children).  Attribute writes
(`item_store`), reads (`item_show`), item release (`keymap_release`,
`remote_release`), group creation (`make_remote`) and the translation scan
(`input_ir_translate`) are translated function by function from the C source.
Machine integers are modelled as `Nat`/`Int` with explicit wrap-around where
the C code can wrap (`simple_strtoul` accumulates in a 64-bit unsigned long).
-/

/-- KEY_MAX from include/linux/input.h: 0x2ff. -/
def KEY_MAX : Nat := 767

/-- INT_MAX for a 32-bit C int. -/
def INT_MAX : Nat := 2147483647

/-- Modulus of the C `unsigned long` (64-bit platform) in which
`simple_strtoul` accumulates its result. -/
def ULONG_MOD : Nat := 2 ^ 64

/-- struct keymap (ir-configfs.c lines 27-33): one configfs item with four
int fields, plus the configfs item name.  kzalloc zero-fills the fields. -/
structure Keymap where
  name : String
  protocol : Int
  device : Int
  command : Int
  keycode : Int
deriving DecidableEq

/-- The observable state of a `struct input_dev` as this driver uses it:
identity fields set in make_remote, whether it is currently registered with
the input core, whether it has been freed, and its key-capability bit set
(`keybit`). -/
structure InputDev where
  name : String
  phys : String
  busVirtual : Bool
  evKey : Bool
  registered : Bool
  freed : Bool
  keybit : Finset Int
deriving DecidableEq

/-- struct remote (ir-configfs.c lines 40-43): a configfs group owning an
input device; its configfs children are the keymaps. -/
structure Remote where
  name : String
  input : InputDev
  keymaps : List Keymap
deriving DecidableEq

/-- The four configfs attributes of a keymap directory
(item_protocol/item_device/item_command/item_keycode). -/
inductive Attr where
  | protocol
  | device
  | command
  | keycode
deriving DecidableEq

/-- make_keymap (lines 155-165): kzalloc a keymap (all fields zero) and
initialise its configfs item with the requested name. -/
def make_keymap (name : String) : Keymap :=
  ⟨name, 0, 0, 0, 0⟩

/- ---------- item_store: parsing (simple_strtoul, base 10) ---------- -/

/-- Decimal digit test, as simple_strtoul's base-10 digit scan. -/
def isDigitC (c : Char) : Bool :=
  decide (48 ≤ c.toNat) && decide (c.toNat ≤ 57)

/-- Numeric value of a digit character. -/
def digitVal (c : Char) : Nat := c.toNat - 48

/-- Value accumulated by simple_strtoul over a digit run (before the
unsigned-long wrap). -/
def parseDigits (l : List Char) : Nat :=
  l.foldl (fun a c => a * 10 + digitVal c) 0

/-- simple_strtoul(page, &p, 10): consume the leading digit run, return its
value wrapped to unsigned long, and leave `p` at the first non-digit. -/
def simple_strtoul (page : List Char) : Nat × List Char :=
  (parseDigits (page.takeWhile isDigitC) % ULONG_MOD, page.dropWhile isDigitC)

/-- Error returns of item_store: -EINVAL and -ERANGE. -/
inductive StoreErr where
  | invalidFormat
  | outOfRange
deriving DecidableEq

/-- Replace the i-th keymap of a list by f applied to it (the C code acts on
the keymap item the write targets; we address it by position in its group). -/
def modifyAt (l : List Keymap) (i : Nat) (f : Keymap → Keymap) : List Keymap :=
  match l[i]? with
  | some km => l.set i (f km)
  | none => l

/-- item_store, lines 103-119, after the parse: range-check `tmp > INT_MAX`
then dispatch on the attribute.  protocol/device/command are plain field
assignments; keycode additionally set_bit's the new code on the parent
remote's input keybit — only when `tmp < KEY_MAX`, and without clearing any
previously set bit; an out-of-range keycode is silently ignored (the write
still returns count, i.e. success). -/
def item_store_parsed (r : Remote) (i : Nat) (a : Attr) (tmp : Nat) :
    Except StoreErr Remote :=
  if INT_MAX < tmp then .error .outOfRange
  else
    match a with
    | .protocol => .ok { r with keymaps := modifyAt r.keymaps i (fun km => { km with protocol := (tmp : Int) }) }
    | .device => .ok { r with keymaps := modifyAt r.keymaps i (fun km => { km with device := (tmp : Int) }) }
    | .command => .ok { r with keymaps := modifyAt r.keymaps i (fun km => { km with command := (tmp : Int) }) }
    | .keycode =>
      if tmp < KEY_MAX then
        .ok { r with
              input := { r.input with keybit := insert (tmp : Int) r.input.keybit },
              keymaps := modifyAt r.keymaps i (fun km => { km with keycode := (tmp : Int) }) }
      else .ok r

/-- item_store (lines 90-120): parse with simple_strtoul; -EINVAL if the
character at which the parse stopped is neither NUL (end of buffer) nor a
newline; otherwise hand the parsed value to the range check and dispatch. -/
def item_store (r : Remote) (i : Nat) (a : Attr) (page : List Char) :
    Except StoreErr Remote :=
  match page.dropWhile isDigitC with
  | [] => item_store_parsed r i a (parseDigits (page.takeWhile isDigitC) % ULONG_MOD)
  | ch :: _ =>
    if ch = '\n' then
      item_store_parsed r i a (parseDigits (page.takeWhile isDigitC) % ULONG_MOD)
    else .error .invalidFormat

/- ---------- item_show (sprintf "%d\n") ---------- -/

/-- Decimal digit character for n < 10. -/
def digitChar (n : Nat) : Char := Char.ofNat (48 + n)

/-- Fuel-driven digit expansion: with fuel > n the result is the canonical
decimal rendering of n, most significant digit first. -/
def printNatGo : Nat → Nat → List Char
  | 0, _ => []
  | fuel + 1, n =>
    if n < 10 then [digitChar n]
    else printNatGo fuel (n / 10) ++ [digitChar (n % 10)]

/-- Canonical decimal rendering of a natural number, most significant digit
first, as produced by sprintf %u for non-negative values. -/
def printNat (n : Nat) : List Char := printNatGo (n + 1) n

/-- sprintf "%d" rendering of a C int. -/
def printInt (i : Int) : List Char :=
  if i < 0 then '-' :: printNat i.natAbs else printNat i.toNat

/-- item_show (lines 75-88): render the selected field as "%d\n". -/
def item_show (km : Keymap) (a : Attr) : List Char :=
  (match a with
   | .protocol => printInt km.protocol
   | .device => printInt km.device
   | .command => printInt km.command
   | .keycode => printInt km.keycode) ++ ['\n']

/- ---------- release paths ---------- -/

/-- keymap_release (lines 122-130): clear_bit the keymap's current keycode on
the parent remote's input keybit — unconditionally, whether or not another
keymap of the group holds the same code — then free the keymap (modelled by
removing it from the group's list). -/
def keymap_release (r : Remote) (i : Nat) : Remote :=
  match r.keymaps[i]? with
  | some km =>
    { r with
      input := { r.input with keybit := r.input.keybit.erase km.keycode },
      keymaps := r.keymaps.eraseIdx i }
  | none => r

/-- remote_release (lines 194-202): input_free_device(remote->input) and
kfree(remote).  Note the device is freed but never unregistered (no
input_unregister_device call anywhere in the source). -/
def remote_release (r : Remote) : Remote :=
  { r with input := { r.input with freed := true } }

/-- Iterate keymap_release over the first keymap n times. -/
def releaseKeymapsFrom (r : Remote) : Nat → Remote
  | 0 => r
  | n + 1 => releaseKeymapsFrom (keymap_release r 0) n

/-- Modelled from the spec: group teardown.  The namespace mechanism
(configfs core, which is not under src/) drops every child item of the group
first, invoking keymap_release on each, and then releases the group itself
through remote_release.  Only the two release callbacks themselves are in the
source. -/
def remote_teardown (r : Remote) : Remote :=
  remote_release (releaseKeymapsFrom r r.keymaps.length)

/- ---------- make_remote ---------- -/

/-- Error returns of make_remote: -ENOMEM and the propagated
input_register_device failure. -/
inductive MakeErr where
  | noMem
  | registrationFailed
deriving DecidableEq

/-- Resource ledger for one make_remote call: which of the two allocations
(struct remote, input device) were made and released, and whether the device
ended up registered with the input core. -/
structure MakeTrace where
  remoteAllocated : Bool
  remoteFreed : Bool
  inputAllocated : Bool
  inputFreed : Bool
  inputRegistered : Bool
deriving DecidableEq

/-- make_remote (lines 237-269): kzalloc the remote, allocate the input
device, fill in its identity (BUS_VIRTUAL, name, phys "remotes", EV_KEY),
register it; on registration failure goto free_input (input_free_device)
then free_mem (kfree) and return the error; on success initialise the
configfs group.  The two allocation outcomes and the registration outcome
are environment inputs. -/
def make_remote (name : String)
    (remoteAllocOk inputAllocOk registerOk : Bool) :
    Except MakeErr Remote × MakeTrace :=
  if !remoteAllocOk then
    (.error .noMem, ⟨false, false, false, false, false⟩)
  else if !inputAllocOk then
    (.error .noMem, ⟨true, true, false, false, false⟩)
  else if !registerOk then
    (.error .registrationFailed, ⟨true, true, true, true, false⟩)
  else
    (.ok ⟨name, ⟨name, "remotes", true, true, true, false, ∅⟩, []⟩,
     ⟨true, false, true, false, true⟩)

/-- Modelled from the spec: the configfs core (not under src/) inserts the
group returned by make_remote into the registry's children only when the
call succeeds; on failure the mapping is unchanged. -/
def registry_make_remote (regs : List Remote) (name : String)
    (remoteAllocOk inputAllocOk registerOk : Bool) :
    List Remote × Except MakeErr Unit × MakeTrace :=
  match make_remote name remoteAllocOk inputAllocOk registerOk with
  | (.ok r, t) => (regs ++ [r], .ok (), t)
  | (.error e, t) => (regs, .error e, t)

/- ---------- input_ir_translate ---------- -/

/-- The three IR event codes reported on the source device
(IR_PROTOCOL, IR_DEVICE, IR_COMMAND). -/
inductive IRField where
  | protocol
  | device
  | command
deriving DecidableEq

/-- Observable emissions of the translation scan: input_report_ir and
input_sync on the source device, input_report_key and input_sync on a
remote's input device (devices identified by name). -/
inductive Event where
  | reportIR (dev : String) (f : IRField) (v : Int)
  | reportKey (dev : String) (code : Int) (value : Int)
  | sync (dev : String)
deriving DecidableEq

/-- Events contributed by one keymap during the scan (lines 338-344): if its
protocol/device/command all equal the input tuple, a key-down for its
keycode followed by a sync on the owning remote's input device; otherwise
nothing.  There is no check that the keycode was ever written. -/
def keymapEvents (gname : String) (p d c : Int) (km : Keymap) : List Event :=
  if km.protocol = p ∧ km.device = d ∧ km.command = c then
    [Event.reportKey gname km.keycode 1, Event.sync gname]
  else []

/-- input_ir_translate (lines 319-348): report the IR protocol/device/command
values and sync on the source device, then walk every remote group and every
keymap in it, appending the per-keymap events; no early exit on match. -/
def input_ir_translate (dev : String) (rs : List Remote) (p d c : Int) :
    List Event :=
  [Event.reportIR dev IRField.protocol p,
   Event.reportIR dev IRField.device d,
   Event.reportIR dev IRField.command c,
   Event.sync dev]
  ++ rs.flatMap (fun g => g.keymaps.flatMap (keymapEvents g.input.name p d c))

/- ---------- concrete states used by witnesses and counterexamples ---------- -/

/-- A registered, live input device with an empty capability set, as
make_remote produces it. -/
def exInput (n : String) : InputDev := ⟨n, "remotes", true, true, true, false, ∅⟩

/-- Group G1 of the spec's example: one entry (1, 2, 3) → keycode 30. -/
def exG1 : Remote := ⟨"G1", exInput "G1", [⟨"a", 1, 2, 3, 30⟩]⟩

/-- Group G2 of the spec's example: one entry (1, 2, 3) → keycode 31. -/
def exG2 : Remote := ⟨"G2", exInput "G2", [⟨"b", 1, 2, 3, 31⟩]⟩

/- ---------- helper lemmas ---------- -/

/-- Splitting a flatMap at a member of the list. -/
lemma flatMap_eq_append_of_mem {α β : Type} {l : List α} {a : α} (f : α → List β)
    (h : a ∈ l) : ∃ s t, l.flatMap f = s ++ f a ++ t := by
  obtain ⟨s, t, rfl⟩ := List.append_of_mem h
  exact ⟨s.flatMap f, t.flatMap f, by simp⟩

/-- A matching keymap's key-down‑then‑sync pair occurs contiguously in the
translate output. -/
lemma translate_infix_of_match {dev : String} {rs : List Remote} {p d c : Int}
    {g : Remote} {km : Keymap} (hg : g ∈ rs) (hkm : km ∈ g.keymaps)
    (hp : km.protocol = p) (hd : km.device = d) (hc : km.command = c) :
    List.IsInfix [Event.reportKey g.input.name km.keycode 1, Event.sync g.input.name]
      (input_ir_translate dev rs p d c) := by
  obtain ⟨s1, t1, h1⟩ :=
    flatMap_eq_append_of_mem (fun g => g.keymaps.flatMap (keymapEvents g.input.name p d c)) hg
  obtain ⟨s2, t2, h2⟩ := flatMap_eq_append_of_mem (keymapEvents g.input.name p d c) hkm
  have hke : keymapEvents g.input.name p d c km =
      [Event.reportKey g.input.name km.keycode 1, Event.sync g.input.name] := by
    simp [keymapEvents, hp, hd, hc]
  refine ⟨[Event.reportIR dev IRField.protocol p, Event.reportIR dev IRField.device d,
           Event.reportIR dev IRField.command c, Event.sync dev] ++ s1 ++ s2,
          t2 ++ t1, ?_⟩
  simp only [input_ir_translate, h1, h2, hke, List.append_assoc]

/-- Every reportKey in the translate output comes from a keymap of some group
whose tuple equals the input tuple. -/
lemma reportKey_mem_translate {dev n : String} {rs : List Remote} {p d c code v : Int}
    (h : Event.reportKey n code v ∈ input_ir_translate dev rs p d c) :
    ∃ g ∈ rs, ∃ km ∈ g.keymaps,
      km.protocol = p ∧ km.device = d ∧ km.command = c := by
  simp only [input_ir_translate, List.mem_append, List.mem_cons,
    List.mem_flatMap, List.not_mem_nil] at h
  rcases h with h | h
  · simp at h
  · obtain ⟨g, hg, km, hkm, he⟩ := h
    refine ⟨g, hg, km, hkm, ?_⟩
    by_cases hm : km.protocol = p ∧ km.device = d ∧ km.command = c
    · exact hm
    · simp [keymapEvents, hm] at he

/- ---------- C1 ---------- -/

/-- C1: for every translate(protocol, device, command) call, every registered
group and every keymap in it whose (protocol, device, command) fields equal
the input tuple contributes a key-down for its keycode immediately followed
by a sync on that group's input device; the scan has no early exit, so this
holds for all matching entries across all groups at once; and when no entry
matches, no key event appears on any group's device. -/
theorem translate_broadcasts_all_matches
    (dev : String) (rs : List Remote) (p d c : Int) :
    (∀ g ∈ rs, ∀ km ∈ g.keymaps,
        km.protocol = p → km.device = d → km.command = c →
        List.IsInfix
          [Event.reportKey g.input.name km.keycode 1, Event.sync g.input.name]
          (input_ir_translate dev rs p d c))
    ∧ ((∀ g ∈ rs, ∀ km ∈ g.keymaps,
          ¬(km.protocol = p ∧ km.device = d ∧ km.command = c)) →
        ∀ (n : String) (code v : Int),
          Event.reportKey n code v ∉ input_ir_translate dev rs p d c) := by
  constructor
  · intro g hg km hkm hp hd hc
    exact translate_infix_of_match hg hkm hp hd hc
  · intro hnone n code v hmem
    obtain ⟨g, hg, km, hkm, hm⟩ := reportKey_mem_translate hmem
    exact hnone g hg km hkm hm

/-- C1 witness: the spec's own example.  G1 holds (1,2,3)→30, G2 holds
(1,2,3)→31; translate(1,2,3) produces the key-down+sync pair on both
devices, and translate(9,9,9) produces no key event anywhere. -/
theorem translate_broadcasts_all_matches_witness :
    List.IsInfix [Event.reportKey "G1" 30 1, Event.sync "G1"]
      (input_ir_translate "src" [exG1, exG2] 1 2 3)
    ∧ List.IsInfix [Event.reportKey "G2" 31 1, Event.sync "G2"]
      (input_ir_translate "src" [exG1, exG2] 1 2 3)
    ∧ ∀ (n : String) (code v : Int),
        Event.reportKey n code v ∉ input_ir_translate "src" [exG1, exG2] 9 9 9 := by
  refine ⟨?_, ?_, ?_⟩
  · exact (translate_broadcasts_all_matches "src" [exG1, exG2] 1 2 3).1
      exG1 (by simp) ⟨"a", 1, 2, 3, 30⟩ (by simp [exG1]) rfl rfl rfl
  · exact (translate_broadcasts_all_matches "src" [exG1, exG2] 1 2 3).1
      exG2 (by simp) ⟨"b", 1, 2, 3, 31⟩ (by simp [exG2]) rfl rfl rfl
  · exact (translate_broadcasts_all_matches "src" [exG1, exG2] 9 9 9).2
      (by decide)

/- ---------- C10 ---------- -/

/-- C10: translate unconditionally begins by reporting the IR protocol,
device and command values followed by a sync on the source device, before
and regardless of any keymap matching. -/
theorem translate_emits_ir_prefix
    (dev : String) (rs : List Remote) (p d c : Int) :
    (input_ir_translate dev rs p d c).take 4 =
      [Event.reportIR dev IRField.protocol p,
       Event.reportIR dev IRField.device d,
       Event.reportIR dev IRField.command c,
       Event.sync dev] := rfl

/- ---------- C4 ---------- -/

/-- A fresh group holding a single fresh keymap, as configfs mkdir creates
them. -/
def c4Group : Remote := ⟨"G4", exInput "G4", [make_keymap "e"]⟩

/-- Unwrap a successful item_store result (the writes below all succeed). -/
def storeD (r : Remote) (i : Nat) (a : Attr) (page : List Char) : Remote :=
  (item_store r i a page).toOption.getD r

/-- c4Group after writing protocol=1, device=2, command=3 to its entry and
never writing the keycode attribute: the keycode still holds the
creation-time zero from kzalloc. -/
def c4Written : Remote :=
  storeD (storeD (storeD c4Group 0 Attr.protocol ['1']) 0 Attr.device ['2'])
    0 Attr.command ['3']

/-- C4 counterexample: an entry whose tuple matches but whose keycode was
never assigned still fires — translate emits a key-down for keycode 0 (the
kzalloc sentinel) on the group's device.  The source's match test (lines
339-340) never examines whether the keycode was set. -/
theorem translate_fires_on_unset_keycode :
    (∀ km ∈ c4Written.keymaps, km.keycode = 0) ∧
    Event.reportKey "G4" 0 1 ∈ input_ir_translate "src" [c4Written] 1 2 3 := by
  decide

/-- C4 amended: translate fires for every tuple-matching entry regardless of
whether its keycode was ever assigned; an entry left at the creation-time
sentinel keycode 0 fires a key-down for code 0 (the sentinel is
indistinguishable from an assigned 0). -/
theorem translate_unset_keycode_fires_zero
    (dev : String) (rs : List Remote) (p d c : Int)
    (g : Remote) (km : Keymap) (hg : g ∈ rs) (hkm : km ∈ g.keymaps)
    (hp : km.protocol = p) (hd : km.device = d) (hc : km.command = c)
    (hunset : km.keycode = 0) :
    Event.reportKey g.input.name 0 1 ∈ input_ir_translate dev rs p d c := by
  have h := @translate_infix_of_match dev rs p d c g km hg hkm hp hd hc
  rw [hunset] at h
  exact h.subset (by simp)

/-- C4 amended witness: the concrete never-assigned entry of c4Written. -/
theorem translate_unset_keycode_fires_zero_witness :
    Event.reportKey "G4" 0 1 ∈ input_ir_translate "src2" [c4Written] 1 2 3 :=
  translate_unset_keycode_fires_zero "src2" [c4Written] 1 2 3
    c4Written ⟨"e", 1, 2, 3, 0⟩ (by decide) (by decide) rfl rfl rfl rfl

/- ---------- C2 ---------- -/

/-- A fresh group with one fresh entry, for the keycode-rebind scenario. -/
def c2Group : Remote := ⟨"G2b", exInput "G2b", [make_keymap "e"]⟩

/-- Unwrap a successful parsed-level keycode write. -/
def storeParsedD (r : Remote) (i : Nat) (a : Attr) (v : Nat) : Remote :=
  (item_store_parsed r i a v).toOption.getD r

/-- c2Group after writing keycode 30 and then keycode 31 to its only entry. -/
def c2Rebound : Remote :=
  storeParsedD (storeParsedD c2Group 0 Attr.keycode 30) 0 Attr.keycode 31

/-- C2 counterexample: after rebinding the entry's keycode from 30 to 31,
bit 30 is still set on the group's capability set although no live entry
reserves 30 — the keycode branch of item_store (lines 112-118) set_bit's the
new code but never clear_bit's the previous one. -/
theorem keycode_rebind_leaves_stale_bit :
    (30 : Int) ∈ c2Rebound.input.keybit ∧
    ∀ km ∈ c2Rebound.keymaps, km.keycode ≠ (30 : Int) := by
  decide

/-- C2 amended: a valid keycode write reserves the new bit and leaves every
previously set bit in place (the capability set only grows: previously
reserved bits are never released by a rewrite), and entry removal clears the
entry's current keycode bit unconditionally — even when another live entry
of the group reserves the same code. -/
theorem keycode_bit_accounting
    (r : Remote) (i : Nat) (km : Keymap) (v : Nat)
    (hkm : r.keymaps[i]? = some km) (hv : v < KEY_MAX) :
    (∃ r', item_store_parsed r i Attr.keycode v = Except.ok r' ∧
       r'.input.keybit = insert (v : Int) r.input.keybit ∧
       r'.keymaps[i]? = some { km with keycode := (v : Int) })
    ∧ (keymap_release r i).input.keybit = r.input.keybit.erase km.keycode
    ∧ (keymap_release r i).keymaps = r.keymaps.eraseIdx i := by
  have hlt : i < r.keymaps.length := by
    rcases List.getElem?_eq_some.mp hkm with ⟨h, _⟩
    exact h
  have hrange : ¬ INT_MAX < v := by
    unfold KEY_MAX at hv
    unfold INT_MAX
    omega
  refine ⟨⟨{ r with
        input := { r.input with keybit := insert (v : Int) r.input.keybit },
        keymaps := modifyAt r.keymaps i (fun km => { km with keycode := (v : Int) }) },
      ?_, rfl, ?_⟩, ?_, ?_⟩
  · simp [item_store_parsed, hrange, hv]
  · simp [modifyAt, hkm, List.getElem?_set_self hlt]
  · simp [keymap_release, hkm]
  · simp [keymap_release, hkm]

/-- C2 amended witness: the rebind scenario at concrete values. -/
theorem keycode_bit_accounting_witness :
    (∃ r', item_store_parsed c2Group 0 Attr.keycode 30 = Except.ok r' ∧
       r'.input.keybit = insert (30 : Int) c2Group.input.keybit ∧
       r'.keymaps[0]? = some { make_keymap "e" with keycode := (30 : Int) })
    ∧ (keymap_release c2Group 0).input.keybit =
        c2Group.input.keybit.erase (make_keymap "e").keycode
    ∧ (keymap_release c2Group 0).keymaps = c2Group.keymaps.eraseIdx 0 :=
  keycode_bit_accounting c2Group 0 (make_keymap "e") 30 (by decide) (by decide)

/- ---------- C3 ---------- -/

/-- A group whose entry already holds keycode 30, to observe that an
out-of-range write changes nothing. -/
def c3Group : Remote := ⟨"G3", exInput "G3", [⟨"e", 0, 0, 0, 30⟩]⟩

/-- C3 counterexample: writing "767" (= KEY_MAX, so out of range for a
keycode) to the keycode attribute returns success — the full byte count, not
-ERANGE — and leaves the remote, its entry's keycode and its capability set
unchanged.  The claim's OutOfRange error is never produced for
KEY_MAX ≤ v ≤ INT_MAX. -/
theorem keycode_overmax_write_succeeds :
    item_store c3Group 0 Attr.keycode ['7', '6', '7', '\n'] =
      Except.ok c3Group := rfl

/-- C3 amended: a keycode write of v with KEY_MAX ≤ v ≤ INT_MAX leaves the
entry's keycode and the capability set unchanged but reports success (the
source silently ignores the value, lines 112-118); only v > INT_MAX is
rejected with the range error (line 103), and that check belongs to the
generic integer parse, not to the keycode range. -/
theorem keycode_overmax_behavior (r : Remote) (i : Nat) (v : Nat) :
    (KEY_MAX ≤ v → v ≤ INT_MAX →
       item_store_parsed r i Attr.keycode v = Except.ok r)
    ∧ (INT_MAX < v →
       item_store_parsed r i Attr.keycode v = Except.error StoreErr.outOfRange) := by
  constructor
  · intro hlo hhi
    have h1 : ¬ INT_MAX < v := by omega
    have h2 : ¬ v < KEY_MAX := by omega
    simp [item_store_parsed, h1, h2]
  · intro h
    simp [item_store_parsed, h]

/-- C3 amended witness: v = 767 succeeds unchanged, v = 2^31 is rejected. -/
theorem keycode_overmax_behavior_witness :
    item_store_parsed c3Group 0 Attr.keycode 767 = Except.ok c3Group ∧
    item_store_parsed c3Group 0 Attr.keycode 2147483648 =
      Except.error StoreErr.outOfRange :=
  ⟨(keycode_overmax_behavior c3Group 0 767).1 (by decide) (by decide),
   (keycode_overmax_behavior c3Group 0 2147483648).2 (by decide)⟩

/- ---------- C5 ---------- -/

/-- A live registered group with one entry holding keycode 30 and bit 30
reserved, about to be removed. -/
def c5Group : Remote :=
  ⟨"G5", ⟨"G5", "remotes", true, true, true, false, {30}⟩, [⟨"e", 1, 2, 3, 30⟩]⟩

/-- C5: evaluating the teardown at the failing input.  Removing the group
does release every entry (the keymaps are gone and their reserved bits are
cleared) and does free the input device — but the device is still marked
registered afterwards: remote_release (lines 194-202) calls
input_free_device without ever calling input_unregister_device, so the
registration with the host input system is never undone. -/
theorem remove_group_leaves_endpoint_registered :
    (remote_teardown c5Group).keymaps = [] ∧
    (remote_teardown c5Group).input.keybit = ∅ ∧
    (remote_teardown c5Group).input.freed = true ∧
    (remote_teardown c5Group).input.registered = true := by
  decide

/- ---------- C8 ---------- -/

/-- C8: when input_register_device rejects the new device during group
creation, make_remote frees the allocated input device (goto free_input)
and the allocated remote (goto free_mem), returns the registration error,
leaves nothing registered, and the registry's group list is unchanged. -/
theorem make_remote_register_failure_cleanup
    (regs : List Remote) (name : String) :
    registry_make_remote regs name true true false =
      (regs, Except.error MakeErr.registrationFailed,
       ⟨true, true, true, true, false⟩) := rfl

/- ---------- parse/print correspondence lemmas ---------- -/

lemma digitVal_digitChar {m : Nat} (h : m < 10) : digitVal (digitChar m) = m := by
  interval_cases m <;> rfl

lemma isDigitC_digitChar {m : Nat} (h : m < 10) : isDigitC (digitChar m) = true := by
  interval_cases m <;> rfl

lemma printNatGo_all_digits :
    ∀ (fuel n : Nat), ∀ c ∈ printNatGo fuel n, isDigitC c = true := by
  intro fuel
  induction fuel with
  | zero => intro n c hc; simp [printNatGo] at hc
  | succ fuel ih =>
    intro n c hc
    by_cases h : n < 10
    · simp [printNatGo, h] at hc
      subst hc
      exact isDigitC_digitChar h
    · simp [printNatGo, h] at hc
      rcases hc with hc | hc
      · exact ih _ _ hc
      · subst hc
        exact isDigitC_digitChar (Nat.mod_lt _ (by omega))

lemma printNat_all_digits (n : Nat) : ∀ c ∈ printNat n, isDigitC c = true :=
  printNatGo_all_digits (n + 1) n

lemma parseDigits_append_singleton (l : List Char) (c : Char) :
    parseDigits (l ++ [c]) = parseDigits l * 10 + digitVal c := by
  simp [parseDigits, List.foldl_append]

lemma parseDigits_printNatGo :
    ∀ fuel n, n < fuel → parseDigits (printNatGo fuel n) = n := by
  intro fuel
  induction fuel with
  | zero => omega
  | succ fuel ih =>
    intro n hn
    by_cases h : n < 10
    · simp [printNatGo, h, parseDigits, digitVal_digitChar h]
    · have hdiv : n / 10 < fuel :=
        lt_of_lt_of_le (Nat.div_lt_self (by omega) (by omega)) (by omega)
      rw [printNatGo]
      simp only [h, if_false, parseDigits_append_singleton, ih _ hdiv,
        digitVal_digitChar (Nat.mod_lt n (by omega))]
      omega

lemma parseDigits_printNat (n : Nat) : parseDigits (printNat n) = n :=
  parseDigits_printNatGo (n + 1) n (Nat.lt_succ_self n)

lemma takeDrop_append {p : Char → Bool} (l1 : List Char) (x : Char) (l2 : List Char)
    (h1 : ∀ c ∈ l1, p c = true) (hx : p x = false) :
    (l1 ++ x :: l2).takeWhile p = l1 ∧ (l1 ++ x :: l2).dropWhile p = x :: l2 := by
  induction l1 with
  | nil => simp [List.takeWhile_cons, List.dropWhile_cons, hx]
  | cons a l ih =>
    have ha : p a = true := h1 a (by simp)
    have h1' : ∀ c ∈ l, p c = true := fun c hc => h1 c (by simp [hc])
    have := ih h1'
    simp [List.takeWhile_cons, List.dropWhile_cons, ha, this.1, this.2]

/-- Writing the canonical decimal page for v (digits then a newline) reaches
the parsed-level store with exactly the value v. -/
lemma item_store_printNat (r : Remote) (i : Nat) (a : Attr) (v : Nat)
    (hv : v ≤ INT_MAX) :
    item_store r i a (printNat v ++ ['\n']) = item_store_parsed r i a v := by
  have hnl : isDigitC '\n' = false := rfl
  obtain ⟨htake, hdrop⟩ :=
    takeDrop_append (printNat v) '\n' [] (printNat_all_digits v) hnl
  have hmod : v % ULONG_MOD = v :=
    Nat.mod_eq_of_lt (by unfold INT_MAX at hv; unfold ULONG_MOD; omega)
  simp [item_store, hdrop, htake, parseDigits_printNat, hmod]

/- ---------- C6 ---------- -/

/-- A fresh group with one fresh entry for the round-trip scenarios. -/
def c6Group : Remote := ⟨"G6", exInput "G6", [make_keymap "f"]⟩

/-- C6 counterexample: "767\n" is a valid decimal string (within the int
range) and the keycode attribute accepts the write — it returns success —
yet reading the attribute back yields "0\n", not "767\n": values ≥ KEY_MAX
are silently dropped by the keycode branch (lines 112-118), so the
write/read round trip fails on the keycode attribute. -/
theorem keycode_roundtrip_fails_at_keymax :
    item_store c6Group 0 Attr.keycode ['7', '6', '7', '\n'] =
      Except.ok c6Group ∧
    ∀ km ∈ c6Group.keymaps,
      item_show km Attr.keycode ≠ ['7', '6', '7', '\n'] := by
  refine ⟨rfl, ?_⟩
  decide

/-- C6 amended: the write/read round trip holds for the canonical decimal
string of v (digits, no leading zeros, newline-terminated) on any attribute,
provided v ≤ INT_MAX and — for the keycode attribute only — v < KEY_MAX;
for keycode values in [KEY_MAX, INT_MAX] the write succeeds but the value is
dropped, and non-canonical spellings re-read canonically. -/
theorem attr_roundtrip
    (r : Remote) (i : Nat) (km : Keymap) (a : Attr) (v : Nat)
    (hkm : r.keymaps[i]? = some km) (hv : v ≤ INT_MAX)
    (hkc : a = Attr.keycode → v < KEY_MAX) :
    ∃ r' km', item_store r i a (printNat v ++ ['\n']) = Except.ok r' ∧
      r'.keymaps[i]? = some km' ∧
      item_show km' a = printNat v ++ ['\n'] := by
  have hlt : i < r.keymaps.length := (List.getElem?_eq_some.mp hkm).1
  have hnr : ¬ INT_MAX < v := by omega
  have hshow : printInt ((v : Nat) : Int) = printNat v := by
    simp [printInt, printNat]
  rw [item_store_printNat r i a v hv]
  cases a with
  | protocol =>
    refine ⟨{ r with keymaps := modifyAt r.keymaps i (fun km => { km with protocol := (v : Int) }) }, { km with protocol := (v : Int) }, ?_, ?_, ?_⟩
    · simp [item_store_parsed, hnr]
    · simp [modifyAt, hkm, List.getElem?_set_self hlt]
    · simp [item_show, hshow]
  | device =>
    refine ⟨{ r with keymaps := modifyAt r.keymaps i (fun km => { km with device := (v : Int) }) }, { km with device := (v : Int) }, ?_, ?_, ?_⟩
    · simp [item_store_parsed, hnr]
    · simp [modifyAt, hkm, List.getElem?_set_self hlt]
    · simp [item_show, hshow]
  | command =>
    refine ⟨{ r with keymaps := modifyAt r.keymaps i (fun km => { km with command := (v : Int) }) }, { km with command := (v : Int) }, ?_, ?_, ?_⟩
    · simp [item_store_parsed, hnr]
    · simp [modifyAt, hkm, List.getElem?_set_self hlt]
    · simp [item_show, hshow]
  | keycode =>
    have hk : v < KEY_MAX := hkc rfl
    refine ⟨{ r with input := { r.input with keybit := insert (v : Int) r.input.keybit }, keymaps := modifyAt r.keymaps i (fun km => { km with keycode := (v : Int) }) }, { km with keycode := (v : Int) }, ?_, ?_, ?_⟩
    · simp [item_store_parsed, hnr, hk]
    · simp [modifyAt, hkm, List.getElem?_set_self hlt]
    · simp [item_show, hshow]

/-- C6 amended witness: write "42\n" to the device attribute of a fresh
entry and read it back. -/
theorem attr_roundtrip_witness :
    ∃ r' km', item_store c6Group 0 Attr.device (printNat 42 ++ ['\n']) =
        Except.ok r' ∧
      r'.keymaps[0]? = some km' ∧
      item_show km' Attr.device = printNat 42 ++ ['\n'] :=
  attr_roundtrip c6Group 0 (make_keymap "f") Attr.device 42
    (by decide) (by decide) (fun h => nomatch h)

/- ---------- C7 ---------- -/

/-- Whitespace per the spec's "trailing non-whitespace garbage" wording. -/
def isSpaceC (c : Char) : Bool :=
  c == ' ' || c == '\t' || c == '\n' || c == '\r'

/-- Modelled from the spec: "parse as non-negative decimal integer; fails
with InvalidFormat on parse failure or trailing non-whitespace garbage".  A
page is well-formed per the spec when it starts with at least one decimal
digit and everything after the digit run is whitespace. -/
def specWellFormedWrite (page : List Char) : Bool :=
  !(page.takeWhile isDigitC).isEmpty && (page.dropWhile isDigitC).all isSpaceC

/-- A fresh group with one fresh entry for the format-error scenario. -/
def c7Group : Remote := ⟨"G7", exInput "G7", [make_keymap "e"]⟩

/-- C7 counterexample: "1 " (a digit followed by a trailing space) parses as
the non-negative decimal 1 with only trailing whitespace — well-formed per
the claim, so it must not fail with InvalidFormat — yet the source returns
-EINVAL for it: the check at line 100 accepts only NUL or '\n' as the first
character after the digit run, so a trailing space is rejected. -/
theorem store_rejects_trailing_space :
    specWellFormedWrite ['1', ' '] = true ∧
    item_store c7Group 0 Attr.protocol ['1', ' '] =
      Except.error StoreErr.invalidFormat := by
  exact ⟨rfl, rfl⟩

lemma item_store_parsed_not_invalid (r : Remote) (i : Nat) (a : Attr) (tmp : Nat) :
    item_store_parsed r i a tmp ≠ Except.error StoreErr.invalidFormat := by
  by_cases h : INT_MAX < tmp <;>
    cases a <;>
      by_cases hk : tmp < KEY_MAX <;>
        simp [item_store_parsed, h, hk]

lemma item_store_parsed_erange_iff (r : Remote) (i : Nat) (a : Attr) (tmp : Nat) :
    item_store_parsed r i a tmp = Except.error StoreErr.outOfRange ↔
      INT_MAX < tmp := by
  by_cases h : INT_MAX < tmp <;>
    cases a <;>
      by_cases hk : tmp < KEY_MAX <;>
        simp [item_store_parsed, h, hk]

/-- C7 amended: the write fails with InvalidFormat exactly when the first
character after the leading digit run exists and is not a newline (a
trailing space is rejected, while a newline followed by arbitrary garbage is
accepted); it fails with OutOfRange exactly when that check passes and the
digit run's value, wrapped to the 64-bit unsigned long, exceeds INT_MAX;
otherwise the typed field operation runs. -/
theorem store_error_characterization
    (r : Remote) (i : Nat) (a : Attr) (page : List Char) :
    (item_store r i a page = Except.error StoreErr.invalidFormat ↔
       ∃ ch rest, page.dropWhile isDigitC = ch :: rest ∧ ch ≠ '\n')
    ∧ (item_store r i a page = Except.error StoreErr.outOfRange ↔
       (∀ ch rest, page.dropWhile isDigitC = ch :: rest → ch = '\n') ∧
       INT_MAX < parseDigits (page.takeWhile isDigitC) % ULONG_MOD) := by
  rcases hdrop : page.dropWhile isDigitC with _ | ⟨ch, rest⟩
  · constructor
    · simp [item_store, hdrop, item_store_parsed_not_invalid]
    · simp [item_store, hdrop, item_store_parsed_erange_iff]
  · by_cases hch : ch = '\n'
    · subst hch
      constructor
      · simp [item_store, hdrop, item_store_parsed_not_invalid]
      · simp [item_store, hdrop, item_store_parsed_erange_iff]
    · constructor
      · simp only [item_store, hdrop, if_neg hch]
        constructor
        · intro _
          exact ⟨ch, rest, rfl, hch⟩
        · intro _
          trivial
      · simp only [item_store, hdrop, if_neg hch]
        constructor
        · intro h
          exact absurd h (by simp)
        · rintro ⟨hall, -⟩
          exact absurd (hall ch rest rfl) hch
